import Mathlib

/-
Verification of the PTT used-camera crawler (src/source/ptt/main.py).

Python strings are modelled as lists of Unicode code points (List Char),
which matches Python's str indexing and slicing.  Machine-level concerns
(network, BeautifulSoup DOM queries, dateutil parsing) are collaborators:
they appear as opaque inputs, never as modelled code.
-/

namespace Ptt

/-- Python's default whitespace set for str.strip / str.split:
space, tab, newline, carriage return, vertical tab, form feed. -/
def isPySpace (c : Char) : Bool :=
  c.toNat = 32 || c.toNat = 9 || c.toNat = 10 || c.toNat = 13 ||
  c.toNat = 11 || c.toNat = 12

/-- Python str.strip(): remove leading and trailing whitespace. -/
def pyStrip (l : List Char) : List Char :=
  ((l.dropWhile isPySpace).reverse.dropWhile isPySpace).reverse

/-- Boolean prefix test: `leadsWith pre l` holds when `l` starts with `pre`. -/
def leadsWith : List Char → List Char → Bool
  | [], _ => true
  | _ :: _, [] => false
  | a :: as, b :: bs => a = b && leadsWith as bs

/-- Boolean substring test, Python's `pat in s`. -/
def containsSeq (pat : List Char) : List Char → Bool
  | [] => pat.isEmpty
  | c :: rest => leadsWith pat (c :: rest) || containsSeq pat rest

/-- Python int() on a digit string (the regex below only ever yields digits). -/
def parseNat (l : List Char) : Nat :=
  l.foldl (fun a c => 10 * a + (c.toNat - 48)) 0

/-! ### The price regex `(\d+00)` of line 58, src/source/ptt/main.py

`re.search("(\\d+00)", content)` returns the leftmost match; at a given
start position the greedy `\d+` backtracks until the literal "00" fits,
which selects the longest digit token at that position that ends in two
zero characters.  `matchAt` reproduces the behaviour at one position by
chopping the reversed maximal digit run; `reSearch` scans left to right. -/

/-- `isChopHead l` holds when `l` starts with '0', '0' and has a third
element: reversed, that is a digit token of length ≥ 3 ending in "00". -/
def isChopHead : List Char → Bool
  | a :: b :: _ :: _ => a = '0' && b = '0'
  | _ => false

/-- Drop elements from the front until the remaining list starts with
'0', '0' and keeps at least one further element. -/
def chop : List Char → Option (List Char)
  | [] => none
  | c :: cs => if isChopHead (c :: cs) then some (c :: cs) else chop cs

/-- Greedy match of `\d+00` anchored at the head of `cs` (the backtracking
regex keeps the longest digit run whose last two characters are "00"). -/
def matchAt (cs : List Char) : Option (List Char) :=
  (chop ((cs.takeWhile Char.isDigit).reverse)).map List.reverse

/-- `re.search("(\\d+00)", ·)`: leftmost position wins. -/
def reSearch : List Char → Option (List Char)
  | [] => none
  | c :: cs =>
    match matchAt (c :: cs) with
    | some t => some t
    | none => reSearch cs

/-- The crawler's price extraction, line 58:
`int(re.search("(\\d+00)", content).group(0))`; `none` models the
`AttributeError` raised when no match exists. -/
def extractPrice (body : List Char) : Option Nat :=
  (reSearch body).map parseNat

/-- A price-shaped token: one or more digits followed by the two literal
zero characters (hence three or more digits, value a multiple of 100). -/
def IsHundredTok (u : List Char) : Prop :=
  ∃ l, l ≠ [] ∧ l.all Char.isDigit = true ∧ u = l ++ ['0', '0']

/-! ### PttRecord (src/source/ptt/main.py lines 43-83) -/

/-- The record of one sale post (class Record, lines 17-40).  `date` keeps
the raw header text: parsing it is delegated to the external dateutil
collaborator and no claim depends on its value. -/
structure Record where
  name : List Char
  price : Nat
  source : List Char
  author : List Char
  date : List Char
  url : List Char
deriving DecidableEq

/-- Classified extraction failures.  The source raises
`PttRecordException` with messages "Not a sale post", "Not an original
post" and "Invalid price"; a body without a price match raises
`AttributeError` from `.group(0)` on `None` (modelled `priceNotFound`),
an empty author field raises `IndexError` from `split()[0]` (modelled
`structureError`), and an unparseable date field makes the dateutil
call of line 57 raise `ValueError` (modelled `dateError`).  All of them
abort construction of the record, which is what the claims are about. -/
inductive PttRecordException where
  | notASalePost
  | notOriginalPost
  | priceNotFound
  | zeroPrice
  | structureError
  | dateError
deriving DecidableEq

deriving instance DecidableEq for Except

/-- The marketplace sale marker looked up on line 69. -/
def saleMarker : List Char := "出售".toList

/-- The reply marker of line 72. -/
def replyMarker : List Char := "Re:".toList

/-- The full-width closing bracket of line 76. -/
def fullBracket : Char := '］'

/-- Python str.rfind: highest index of `c` in `l`, or -1 when absent. -/
def rfindAux (c : Char) : List Char → Int → Int → Int
  | [], _, best => best
  | x :: xs, i, best => rfindAux c xs (i + 1) (if x = c then i else best)

/-- Python `l.rfind(c)`. -/
def rfind (l : List Char) (c : Char) : Int :=
  rfindAux c l 0 (-1)

/-- `PttRecord.__format_name` (lines 65-76): reject non-sale and reply
titles, then return the part after the last closing bracket (ASCII `]`
or full-width, whichever occurs later), stripped. -/
def formatName (name : List Char) : Except PttRecordException (List Char) :=
  if containsSeq saleMarker name = false then .error .notASalePost
  else if leadsWith replyMarker name then .error .notOriginalPost
  else .ok (pyStrip (name.drop (max (rfind name ']') (rfind name fullBracket) + 1).toNat))

/-- First whitespace-delimited token, Python `s.split()[0]`;
`none` models the IndexError on an empty split. -/
def firstToken (l : List Char) : Option (List Char) :=
  match l.dropWhile isPySpace with
  | [] => none
  | c :: rest => some ((c :: rest).takeWhile fun x => !(isPySpace x))

/-- `PttRecord.__init__` (lines 48-63) on the already-selected header
fields and body text, in the statement order of lines 55-63: format the
name (may reject the title), take the author handle, parse the date,
search the body for the first `\d+00` token, reject a zero price, and
build the record.  The DOM selection itself is the structural-query
collaborator, and the `parser.parse` call of line 57 is the external
dateutil collaborator, supplied as the function `parseDate`: `none`
models the ValueError it raises on an unparseable date, which strikes
after the author split and before the price search. -/
def extract (parseDate : List Char → Option (List Char))
    (title author dateStr body url : List Char) :
    Except PttRecordException Record :=
  match formatName title with
  | .error e => .error e
  | .ok name =>
    match firstToken author with
    | none => .error .structureError
    | some a =>
      match parseDate dateStr with
      | none => .error .dateError
      | some d =>
        match reSearch body with
        | none => .error .priceNotFound
        | some t =>
          if parseNat t = 0 then .error .zeroPrice
          else .ok { name := name, price := parseNat t, source := "ptt".toList,
                     author := a, date := d, url := url }

/-! ### Lemmas about the price search -/

theorem leadsWith_append (u r : List Char) : leadsWith u (u ++ r) = true := by
  induction u with
  | nil => rfl
  | cons a as ih => simp [leadsWith, ih]

theorem leadsWith_ex {u l : List Char} (h : leadsWith u l = true) :
    ∃ r, l = u ++ r := by
  induction u generalizing l with
  | nil => exact ⟨l, rfl⟩
  | cons a as ih =>
    cases l with
    | nil => simp [leadsWith] at h
    | cons b bs =>
      simp only [leadsWith, Bool.and_eq_true, decide_eq_true_eq] at h
      obtain ⟨rfl, h2⟩ := h
      obtain ⟨r, rfl⟩ := ih h2
      exact ⟨r, rfl⟩

theorem dropWhile_all {p : Char → Bool} {l : List Char} (h : l.all p = true) :
    l.dropWhile p = [] := by
  induction l with
  | nil => rfl
  | cons a as ih =>
    simp only [List.all_cons, Bool.and_eq_true] at h
    simp [List.dropWhile, h.1, ih h.2]

theorem takeWhile_all (p : Char → Bool) (l : List Char) :
    (l.takeWhile p).all p = true := by
  induction l with
  | nil => rfl
  | cons a as ih =>
    cases h : p a with
    | true => simp [List.takeWhile, h, ih]
    | false => simp [List.takeWhile, h]

theorem takeWhile_append_of_all {p : Char → Bool} {l : List Char} (r : List Char)
    (h : l.all p = true) : (l ++ r).takeWhile p = l ++ r.takeWhile p := by
  induction l with
  | nil => rfl
  | cons a as ih =>
    simp only [List.all_cons, Bool.and_eq_true] at h
    simp [List.takeWhile, h.1, ih h.2]

theorem isChopHead_shape {l : List Char} (h : isChopHead l = true) :
    ∃ c rest, l = '0' :: '0' :: c :: rest := by
  match l with
  | [] => simp [isChopHead] at h
  | [a] => simp [isChopHead] at h
  | [a, b] => simp [isChopHead] at h
  | a :: b :: c :: rest =>
    simp only [isChopHead, Bool.and_eq_true, decide_eq_true_eq] at h
    exact ⟨c, rest, by rw [h.1, h.2]⟩

theorem chop_sound {r out : List Char} (h : chop r = some out) :
    isChopHead out = true ∧ ∃ d, r.drop d = out := by
  induction r with
  | nil => simp [chop] at h
  | cons c cs ih =>
    by_cases hh : isChopHead (c :: cs) = true
    · simp only [chop, hh, if_true, Option.some.injEq] at h
      exact ⟨h ▸ hh, 0, h⟩
    · simp only [chop, hh, if_false, Bool.false_eq_true] at h
      obtain ⟨h1, d, h2⟩ := ih h
      exact ⟨h1, d + 1, h2⟩

theorem chop_complete {s r : List Char} {d : Nat}
    (hs : isChopHead s = true) (hd : r.drop d = s) : chop r ≠ none := by
  induction r generalizing d with
  | nil =>
    simp only [List.drop_nil] at hd
    rw [← hd] at hs
    simp [isChopHead] at hs
  | cons c cs ih =>
    by_cases hh : isChopHead (c :: cs) = true
    · simp [chop, hh]
    · cases d with
      | zero =>
        simp only [List.drop_zero] at hd
        exact absurd (hd ▸ hs) hh
      | succ d' =>
        simp only [List.drop_succ_cons] at hd
        simp only [chop, hh, Bool.false_eq_true, if_false]
        exact ih hd

theorem matchAt_sound {cs t : List Char} (h : matchAt cs = some t) :
    IsHundredTok t ∧ leadsWith t cs = true := by
  unfold matchAt at h
  cases hc : chop ((cs.takeWhile Char.isDigit).reverse) with
  | none => rw [hc] at h; simp at h
  | some out =>
    rw [hc] at h
    simp only [Option.map_some', Option.some.injEq] at h
    obtain ⟨hhead, d, hdrop⟩ := chop_sound hc
    obtain ⟨c, rest, rfl⟩ := isChopHead_shape hhead
    -- t = (c :: rest).reverse ++ ['0', '0']
    have ht : t = (c :: rest).reverse ++ ['0', '0'] := by
      rw [← h]; simp
    -- the digit run decomposes as t ++ w
    set ds := cs.takeWhile Char.isDigit with hds
    have hsplit : ds.reverse.take d ++ ds.reverse.drop d = ds.reverse :=
      List.take_append_drop d ds.reverse
    rw [hdrop] at hsplit
    have hdsdecomp : ds = t ++ (ds.reverse.take d).reverse := by
      have := congrArg List.reverse hsplit
      simpa [← h] using this.symm
    have hcs : cs = ds ++ cs.dropWhile Char.isDigit := by
      rw [hds]; exact (List.takeWhile_append_dropWhile Char.isDigit cs).symm
    constructor
    · refine ⟨(c :: rest).reverse, by simp, ?_, ht⟩
      have hall : ds.all Char.isDigit = true := takeWhile_all Char.isDigit cs
      rw [hdsdecomp, ht] at hall
      simp only [List.all_append, Bool.and_eq_true] at hall
      exact hall.1.1
    · rw [hcs, hdsdecomp, List.append_assoc]
      exact leadsWith_append t _

theorem matchAt_complete {u cs : List Char} (hu : IsHundredTok u)
    (hl : leadsWith u cs = true) : matchAt cs ≠ none := by
  obtain ⟨l, hne, hld, rfl⟩ := hu
  obtain ⟨r, rfl⟩ := leadsWith_ex hl
  have hall : (l ++ ['0', '0']).all Char.isDigit = true := by
    simp only [List.all_append, Bool.and_eq_true]
    exact ⟨hld, by decide⟩
  have hds : ((l ++ ['0', '0']) ++ r).takeWhile Char.isDigit =
      (l ++ ['0', '0']) ++ r.takeWhile Char.isDigit :=
    takeWhile_append_of_all r hall
  unfold matchAt
  rw [hds]
  have hrev : ((l ++ ['0', '0']) ++ r.takeWhile Char.isDigit).reverse =
      (r.takeWhile Char.isDigit).reverse ++ ('0' :: '0' :: l.reverse) := by
    simp
  obtain ⟨c, lrest, hlr⟩ : ∃ c lrest, l.reverse = c :: lrest := by
    cases hcase : l.reverse with
    | nil => exact absurd (by simpa using hcase) hne
    | cons c lrest => exact ⟨c, lrest, rfl⟩
  have hshape : isChopHead ('0' :: '0' :: l.reverse) = true := by
    rw [hlr]; simp [isChopHead]
  have hdrop : ((r.takeWhile Char.isDigit).reverse ++ ('0' :: '0' :: l.reverse)).drop
      (r.takeWhile Char.isDigit).reverse.length = '0' :: '0' :: l.reverse :=
    List.drop_left _ _
  have := chop_complete hshape (hdrop.trans rfl)
  rw [hrev]
  cases hcc : chop ((r.takeWhile Char.isDigit).reverse ++ ('0' :: '0' :: l.reverse)) with
  | none => exact absurd hcc this
  | some out => simp

theorem reSearch_sound {cs t : List Char} (h : reSearch cs = some t) :
    ∃ i, matchAt (cs.drop i) = some t ∧ ∀ j, j < i → matchAt (cs.drop j) = none := by
  induction cs with
  | nil => simp [reSearch] at h
  | cons c cs' ih =>
    cases hm : matchAt (c :: cs') with
    | some t' =>
      rw [reSearch, hm] at h
      refine ⟨0, ?_, by omega⟩
      simpa [← h] using hm
    | none =>
      rw [reSearch, hm] at h
      obtain ⟨i, h1, h2⟩ := ih h
      refine ⟨i + 1, by simpa using h1, ?_⟩
      intro j hj
      cases j with
      | zero => simpa using hm
      | succ j' =>
        simp only [List.drop_succ_cons]
        exact h2 j' (by omega)

theorem reSearch_none {cs : List Char} (h : reSearch cs = none) :
    ∀ i, matchAt (cs.drop i) = none := by
  induction cs with
  | nil => intro i; simp [matchAt, chop]
  | cons c cs' ih =>
    intro i
    cases hm : matchAt (c :: cs') with
    | some t => rw [reSearch, hm] at h; simp at h
    | none =>
      rw [reSearch, hm] at h
      cases i with
      | zero => simpa using hm
      | succ i' => simpa using ih h i'

theorem noTok_of_reSearch_none {cs : List Char} (h : reSearch cs = none) :
    ∀ i u, IsHundredTok u → leadsWith u (cs.drop i) = false := by
  intro i u hu
  cases hlw : leadsWith u (cs.drop i) with
  | false => rfl
  | true => exact absurd (reSearch_none h i) (matchAt_complete hu hlw)

theorem reSearch_none_of_noTok {cs : List Char}
    (h : ∀ i u, IsHundredTok u → leadsWith u (cs.drop i) = false) :
    reSearch cs = none := by
  cases hr : reSearch cs with
  | none => rfl
  | some t =>
    obtain ⟨i, h1, _⟩ := reSearch_sound hr
    obtain ⟨htok, hlw⟩ := matchAt_sound h1
    rw [h i t htok] at hlw
    cases hlw

theorem parseNat_append_zeros (l : List Char) :
    parseNat (l ++ ['0', '0']) = 100 * parseNat l := by
  unfold parseNat
  rw [List.foldl_append]
  have h0 : '0'.toNat - 48 = 0 := by decide
  simp only [List.foldl_cons, List.foldl_nil, h0]
  omega

theorem pyStrip_of_all_space {l : List Char} (h : l.all isPySpace = true) :
    pyStrip l = [] := by
  unfold pyStrip
  rw [dropWhile_all h]
  rfl

/-! ### PttCrawler (src/source/ptt/main.py lines 98-250)

The crawl orchestrator.  The network and the DOM are collaborators, so a
crawl environment `Env` supplies their observable results: what the Page
Walker returns for a listing page (`pages`, lines 182-203; `none` models
the IndexError when the paging control is missing), what fetching and
header-selecting one post yields (`fetchPost`), and whether persisting a
batch succeeds (`save`, lines 236-246; an error models an OSError such
as disk full, which no handler catches). -/

def URL_PREFIX : List Char := "http://www.ptt.cc".toList

def INDEX_SUFFIX : List Char := "/index979.html".toList

def PAGES : Nat := 100

/-- The root listing URL built on lines 157-158. -/
def rootUrl (boardName : List Char) : List Char :=
  URL_PREFIX ++ "/bbs/".toList ++ boardName ++ INDEX_SUFFIX

/-- `Cache.__init__` (lines 116-121): `__next_page` is the stripped file
content when the cache file exists, else `None`.  The argument is the
file's content, or `none` when no file exists. -/
def cacheInit (file : Option (List Char)) : Option (List Char) :=
  match file with
  | some content => some (pyStrip content)
  | none => none

/-- `Cache.is_cached` (lines 137-142). -/
def isCached (c : Option (List Char)) : Bool := c.isSome

/-- Mutable crawl state: the local `page_url` variable and the cache's
`__next_page` field (kept in sync with the cache file by
`write_next_page`). -/
structure CrawlSt where
  pageUrl : List Char
  cache : Option (List Char)
deriving DecidableEq

/-- Result of fetching one post and selecting its header/content nodes:
either the four text fields `PttRecord.__init__` reads, or a fault of
the collaborator layer (AttributeError from a missing node, or any other
exception, e.g. network errors). -/
inductive PostFetch where
  | doc (title author dateStr body : List Char)
  | attrFault
  | unseenFault
deriving DecidableEq

/-- Outcome of `PttCrawler.__fetch_post` for one URL, as discriminated by
the `except` arms of lines 214-222. -/
inductive PostOutcome where
  | ok (r : Record)
  | attrFault
  | pttFault (e : PttRecordException)
  | unseenFault
deriving DecidableEq

/-- The record delivered by an outcome, if any. -/
def PostOutcome.record : PostOutcome → Option Record
  | .ok r => some r
  | .attrFault => none
  | .pttFault _ => none
  | .unseenFault => none

structure Env where
  pages : List Char → Option (List Char × List (List Char))
  fetchPost : List Char → PostFetch
  parseDate : List Char → Option (List Char)
  save : List Record → List Char → Except (List Char) Unit

/-- `__fetch_post` (lines 226-228) composed with `PttRecord.__init__`:
the collaborator supplies the selected fields and the date parser,
`extract` classifies.  (The three exception buckets of `extract` that
the source raises as AttributeError, IndexError or ValueError are still
skipped per-post, so their bucket does not affect the collected
records.) -/
def postOutcome (env : Env) (url : List Char) : PostOutcome :=
  match env.fetchPost url with
  | .doc title author dateStr body =>
    match extract env.parseDate title author dateStr body url with
    | .ok r => .ok r
    | .error e => .pttFault e
  | .attrFault => .attrFault
  | .unseenFault => .unseenFault

/-- `__fetch_page_records` (lines 205-224): drain the URL queue in order;
a success appends its record, each of the three `except` arms
(AttributeError, PttRecordException, Exception) skips the post and
continues. -/
def fetchPageRecords : List PostOutcome → List Record
  | [] => []
  | .ok r :: rest => r :: fetchPageRecords rest
  | .attrFault :: rest => fetchPageRecords rest
  | .pttFault _ :: rest => fetchPageRecords rest
  | .unseenFault :: rest => fetchPageRecords rest

/-- The absolute post URLs `fetch` passes to `__fetch_post` for one
listing page, in queue order (lines 163-167 transfer the queue with no
deduplication; line 211 prepends the host prefix). -/
def postFetchCalls (env : Env) (pageUrl : List Char) : List (List Char) :=
  match env.pages pageUrl with
  | none => []
  | some (_, urls) => urls.map fun u => URL_PREFIX ++ u

/-- The batch of records collected for one listing page. -/
def pageRecords (env : Env) (pageUrl : List Char) : List Record :=
  match env.pages pageUrl with
  | none => []
  | some (_, urls) => fetchPageRecords (urls.map fun u => postOutcome env (URL_PREFIX ++ u))

/-! The page tag regex `(\d+).html` of line 250 (`__parge_page_tag`).
The dot is unescaped, so it matches any character; group(1) is the
greedy digit run.  A failed search raises AttributeError from
`.group(1)`, modelled as `none`. -/

/-- Try `k, k-1, ..., 1` leading digits at this position: after the
digits the pattern needs one arbitrary character and then "html". -/
def tagGo (cs : List Char) : Nat → Option (List Char)
  | 0 => none
  | k + 1 =>
    if leadsWith "html".toList (cs.drop (k + 2)) then some (cs.take (k + 1))
    else tagGo cs k

/-- Match `(\d+).html` anchored at the head of `cs`, returning group 1. -/
def tagAt (cs : List Char) : Option (List Char) :=
  tagGo cs (cs.takeWhile Char.isDigit).length

/-- `re.search("(\\d+).html", ·).group(1)`: leftmost match. -/
def reSearchTag : List Char → Option (List Char)
  | [] => none
  | c :: cs =>
    match tagAt (c :: cs) with
    | some t => some t
    | none => reSearchTag cs

/-- Errors that abort the `fetch` loop: a missing paging control in
`__fetch_page_urls` (IndexError, line 200-201), a page URL without a
numeric tag (AttributeError, line 250), or a persistence failure
(propagating out of `__save_page_records`). -/
inductive RunError where
  | pageStructure
  | tagError
  | saveError (msg : List Char)
deriving DecidableEq

/-- One iteration of the per-page loop of `fetch` (lines 161-180), in
statement order: walk the listing page, collect the page's records
(never fails), compute the tag and save the batch, then set `page_url`
to the next page and write it to the cache.  An uncaught exception
aborts the loop; the error carries the state at the moment of the raise,
which for every failure point precedes the cache write. -/
def stepPage (env : Env) (st : CrawlSt) : Except (RunError × CrawlSt) CrawlSt :=
  match env.pages st.pageUrl with
  | none => .error (.pageStructure, st)
  | some (next, urls) =>
    let recs := fetchPageRecords (urls.map fun u => postOutcome env (URL_PREFIX ++ u))
    match reSearchTag st.pageUrl with
    | none => .error (.tagError, st)
    | some tag =>
      match env.save recs tag with
      | .error msg => .error (.saveError msg, st)
      | .ok _ =>
        let newUrl := URL_PREFIX ++ next
        .ok { pageUrl := newUrl, cache := some newUrl }

/-- The bounded page loop `for _ in range(self.PAGES)`: the pair holds
the final state and the error that aborted the run, if any. -/
def runPages (env : Env) : Nat → CrawlSt → CrawlSt × Option RunError
  | 0, st => (st, none)
  | n + 1, st =>
    match stepPage env st with
    | .error (e, st') => (st', some e)
    | .ok st' => runPages env n st'

/-- The start of `fetch` (lines 148-158): read the cache, start from the
cached next page if present, else from the board's root listing URL. -/
def fetchStartUrl (cache : Option (List Char)) (boardName : List Char) : List Char :=
  match cache with
  | some u => u
  | none => rootUrl boardName

/-- `PttCrawler.__init__` plus the start of `fetch`: the state entering
the per-page loop. -/
def initState (cacheFile : Option (List Char)) (boardName : List Char) : CrawlSt :=
  { pageUrl := fetchStartUrl (cacheInit cacheFile) boardName, cache := cacheInit cacheFile }

/-- A whole crawl run over the configured page budget. -/
def fetchRun (env : Env) (cacheFile : Option (List Char)) (boardName : List Char) :
    CrawlSt × Option RunError :=
  runPages env PAGES (initState cacheFile boardName)

/-- Crash model of `Cache.write_next_page` (lines 123-129):
`open(self.CACHE_FILE, "w")` truncates the file at once, the new value
reaches the disk afterwards.  The list holds the checkpoint file's
content observable after a crash before the open, between the
truncating open and the completed write, and after the write. -/
def writeNextPageStates (oldContent newContent : List Char) : List (List Char) :=
  [oldContent, [], newContent]

/-! ### Claims -/

/-- Claim C3: for every post body, the extracted price is the integer
value of a hundred-rounded token (digits, length at least three, ending
in two zeros) occurring at the leftmost position of the body at which
any such token starts; no hundred-rounded token starts earlier, so later
matches are ignored.  In particular the body
"...price 4500 and also 100..." yields 4500, not 100. -/
theorem c3_claim :
    (∀ body v, extractPrice body = some v →
      ∃ i t, IsHundredTok t ∧ leadsWith t (body.drop i) = true ∧ v = parseNat t ∧
        ∀ j, j < i → ∀ u, IsHundredTok u → leadsWith u (body.drop j) = false) ∧
    extractPrice "...price 4500 and also 100...".toList = some 4500 := by
  constructor
  · intro body v h
    unfold extractPrice at h
    cases hr : reSearch body with
    | none => rw [hr] at h; simp at h
    | some t =>
      rw [hr] at h
      simp only [Option.map_some', Option.some.injEq] at h
      obtain ⟨i, h1, h2⟩ := reSearch_sound hr
      obtain ⟨htok, hlw⟩ := matchAt_sound h1
      refine ⟨i, t, htok, hlw, h.symm, ?_⟩
      intro j hj u hu
      cases hlwu : leadsWith u (body.drop j) with
      | false => rfl
      | true => exact absurd (h2 j hj) (matchAt_complete hu hlwu)
  · decide

/-- Witness for C3 at the spec's own example body. -/
theorem c3_witness :
    ∃ i t, IsHundredTok t ∧
      leadsWith t ("...price 4500 and also 100...".toList.drop i) = true ∧
      4500 = parseNat t ∧
      ∀ j, j < i → ∀ u, IsHundredTok u →
        leadsWith u ("...price 4500 and also 100...".toList.drop j) = false :=
  c3_claim.1 "...price 4500 and also 100...".toList 4500 (by decide)

/-- Claim C4, counterexample: the spec's example title yields the name
"出售 EOS 5D Mark III" — the sale marker after the last closing bracket
is kept, so the claimed output "EOS 5D Mark III" is wrong. -/
theorem c4_counterexample :
    formatName "[Selling][Canon] 出售 EOS 5D Mark III".toList =
      .ok "出售 EOS 5D Mark III".toList ∧
    formatName "[Selling][Canon] 出售 EOS 5D Mark III".toList ≠
      .ok "EOS 5D Mark III".toList := by
  constructor
  · decide
  · decide

/-- Claim C4 as amended: for every valid sale title (sale marker present,
no reply marker) the name is the substring strictly after the last
closing bracket — whichever of the last ASCII ']' and the last
full-width '］' occurs later — trimmed of surrounding whitespace; the
title "[Selling][Canon] 出售 EOS 5D Mark III" yields
"出售 EOS 5D Mark III". -/
theorem c4_claim (title : List Char)
    (h1 : containsSeq saleMarker title = true)
    (h2 : leadsWith replyMarker title = false) :
    formatName title =
      .ok (pyStrip (title.drop (max (rfind title ']') (rfind title fullBracket) + 1).toNat)) ∧
    formatName "[Selling][Canon] 出售 EOS 5D Mark III".toList =
      .ok "出售 EOS 5D Mark III".toList := by
  constructor
  · unfold formatName
    rw [h1, h2]
    simp
  · decide

/-- Witness for C4 at the example title. -/
theorem c4_witness :
    formatName "[Selling][Canon] 出售 EOS 5D Mark III".toList =
      .ok (pyStrip ("[Selling][Canon] 出售 EOS 5D Mark III".toList.drop
        (max (rfind "[Selling][Canon] 出售 EOS 5D Mark III".toList ']')
          (rfind "[Selling][Canon] 出售 EOS 5D Mark III".toList fullBracket) + 1).toNat)) :=
  (c4_claim "[Selling][Canon] 出售 EOS 5D Mark III".toList (by decide) (by decide)).1

/-- Claim C5, counterexample: the title "Re: hi" is reply-marked and its
body "no price here" holds no price-shaped token, yet extraction fails
with notASalePost — the sale-marker check runs first — refuting both
"every Re:-prefixed title fails with NotOriginalPost" and "every
price-less body fails with PriceNotFound" as stated.  The date parser
is the always-succeeding one, so the refutation does not hinge on the
date path. -/
theorem c5_counterexample :
    extract some "Re: hi".toList "a".toList "d".toList "no price here".toList
      "u".toList = .error .notASalePost ∧
    extract some "Re: hi".toList "a".toList "d".toList "no price here".toList
      "u".toList ≠ .error .notOriginalPost ∧
    extract some "Re: hi".toList "a".toList "d".toList "no price here".toList
      "u".toList ≠ .error .priceNotFound := by
  refine ⟨by decide, by decide, by decide⟩

/-- Claim C5 as amended: the failure points strike in the statement
order of lines 55-58.  A title without the sale marker always fails with
notASalePost; a title with the marker but a "Re:" reply marker fails
with notOriginalPost; and when the title passes both checks, the author
field is nonempty and the date field parses, a body containing no
price-shaped token fails with priceNotFound.  No record is produced in
any of these cases. -/
theorem c5_claim (parseDate : List Char → Option (List Char))
    (title author dateStr body url : List Char) :
    (containsSeq saleMarker title = false →
      extract parseDate title author dateStr body url = .error .notASalePost) ∧
    (containsSeq saleMarker title = true → leadsWith replyMarker title = true →
      extract parseDate title author dateStr body url = .error .notOriginalPost) ∧
    (containsSeq saleMarker title = true → leadsWith replyMarker title = false →
      firstToken author ≠ none →
      parseDate dateStr ≠ none →
      (∀ i u, IsHundredTok u → leadsWith u (body.drop i) = false) →
      extract parseDate title author dateStr body url = .error .priceNotFound) := by
  refine ⟨?_, ?_, ?_⟩
  · intro h1
    unfold extract formatName
    rw [h1]
    rfl
  · intro h1 h2
    unfold extract formatName
    rw [h1, h2]
    rfl
  · intro h1 h2 ha hd hb
    unfold extract formatName
    rw [h1, h2]
    simp only [Bool.true_eq_false, if_false, Bool.false_eq_true]
    cases hft : firstToken author with
    | none => exact absurd hft ha
    | some a =>
      cases hpd : parseDate dateStr with
      | none => exact absurd hpd hd
      | some d =>
        rw [reSearch_none_of_noTok hb]

/-- Witness for C5: a sale title, a nonempty author, a parsing date and
a price-less body give priceNotFound. -/
theorem c5_witness :
    extract some "[出售] x".toList "alice".toList "d".toList "hi there".toList
      "u".toList = .error .priceNotFound :=
  (c5_claim some "[出售] x".toList "alice".toList "d".toList "hi there".toList
      "u".toList).2.2
    (by decide) (by decide) (by decide) (by decide)
    (noTok_of_reSearch_none (by decide))

/-- Claim C6: with a checkpoint present the crawl starts exactly at the
checkpoint value; without one it starts at the board's root listing URL.
In particular a stored checkpoint "P5" makes the run start at "P5". -/
theorem c6_claim :
    (∀ v boardName, fetchStartUrl (some v) boardName = v) ∧
    (∀ boardName, fetchStartUrl none boardName = rootUrl boardName) ∧
    (initState (some "P5".toList) "photo-buy".toList).pageUrl = "P5".toList ∧
    (initState (some "P5".toList) "photo-buy".toList).pageUrl ≠
      rootUrl "photo-buy".toList := by
  refine ⟨fun v boardName => rfl, fun boardName => rfl, by decide, by decide⟩

/-- Claim C7: every record that extraction constructs — under any
behaviour of the dateutil collaborator — has a price that is a positive
multiple of 100: the first `\d+00` token ends in two zeros, and a zero
value is rejected before the record is built. -/
theorem c7_claim (parseDate : List Char → Option (List Char))
    (title author dateStr body url : List Char) (r : Record)
    (h : extract parseDate title author dateStr body url = .ok r) :
    0 < r.price ∧ r.price % 100 = 0 := by
  unfold extract at h
  split at h
  · cases h
  · split at h
    · cases h
    · split at h
      · cases h
      · split at h
        · cases h
        next t hr =>
          split at h
          · cases h
          next hz =>
            cases h
            obtain ⟨i, h1, _⟩ := reSearch_sound hr
            obtain ⟨⟨l, hlne, hld, rfl⟩, _⟩ := matchAt_sound h1
            refine ⟨Nat.pos_of_ne_zero hz, ?_⟩
            show parseNat (l ++ ['0', '0']) % 100 = 0
            rw [parseNat_append_zeros]
            exact Nat.mul_mod_right 100 _

/-- The record built from a concrete valid post, for the C7 witness. -/
def sampleRecord : Record :=
  { name := "cam".toList, price := 500, source := "ptt".toList,
    author := "alice".toList, date := "d".toList, url := "u".toList }

/-- Witness for C7 at a concrete successful extraction. -/
theorem c7_witness : 0 < sampleRecord.price ∧ sampleRecord.price % 100 = 0 :=
  c7_claim some "[出售] cam".toList "alice sig".toList "d".toList
    "price 500".toList "u".toList sampleRecord (by decide)

/-- Claim C10: checkpoint presence is decided by file existence alone;
an existing file whose content is empty or whitespace-only still counts
as a checkpoint, its stored value is the empty string, and the crawl
then starts from the empty-string URL, not from the root listing URL. -/
theorem c10_claim (content boardName : List Char) :
    isCached (cacheInit (some content)) = true ∧
    cacheInit none = none ∧
    (content.all isPySpace = true →
      cacheInit (some content) = some [] ∧
      fetchStartUrl (cacheInit (some content)) boardName = []) := by
  refine ⟨rfl, rfl, fun h => ?_⟩
  have hs : pyStrip content = [] := pyStrip_of_all_space h
  refine ⟨?_, ?_⟩
  · show some (pyStrip content) = some []
    rw [hs]
  · show pyStrip content = []
    exact hs

/-- Witness for C10 at a whitespace-only cache file. -/
theorem c10_witness :
    isCached (cacheInit (some " \n".toList)) = true ∧
    cacheInit (some " \n".toList) = some [] ∧
    fetchStartUrl (cacheInit (some " \n".toList)) "photo-buy".toList = [] :=
  ⟨(c10_claim " \n".toList "photo-buy".toList).1,
   ((c10_claim " \n".toList "photo-buy".toList).2.2 (by decide)).1,
   ((c10_claim " \n".toList "photo-buy".toList).2.2 (by decide)).2⟩

/-- Claim C8: page-level record collection is total over every possible
sequence of per-post outcomes — classified validation failures,
AttributeError-class faults and arbitrary unanticipated faults alike are
skipped — and it returns exactly the records of the posts that extracted
successfully, in order. -/
theorem c8_claim (outcomes : List PostOutcome) :
    fetchPageRecords outcomes = outcomes.filterMap PostOutcome.record := by
  induction outcomes with
  | nil => rfl
  | cons o rest ih =>
    cases o <;> simp [fetchPageRecords, List.filterMap_cons, PostOutcome.record, ih]

/-- A crawl environment whose one listing page lists the same post URL
twice, the post being a valid sale offer. -/
def envC1 : Env :=
  { pages := fun _ => some ("/index978.html".toList,
      ["/bbs/a.html".toList, "/bbs/a.html".toList]),
    fetchPost := fun _ =>
      .doc "[出售] cam".toList "alice".toList "d".toList "price 500".toList,
    parseDate := some,
    save := fun _ _ => .ok () }

/-- The record that each occurrence of the duplicated URL produces. -/
def dupRecord : Record :=
  { name := "cam".toList, price := 500, source := "ptt".toList,
    author := "alice".toList, date := "d".toList,
    url := URL_PREFIX ++ "/bbs/a.html".toList }

/-- Claim C1, counterexample: a post URL discovered twice on one page is
fetched twice and the page batch holds two Records with that URL — there
is no dedup set, refuting "the Post Extractor is invoked at most once
and at most one Record is produced" for a duplicated URL. -/
theorem c1_counterexample :
    (postFetchCalls envC1 "p".toList).count (URL_PREFIX ++ "/bbs/a.html".toList) = 2 ∧
    ((pageRecords envC1 "p".toList).map Record.url).count
      (URL_PREFIX ++ "/bbs/a.html".toList) = 2 := by
  refine ⟨by decide, by decide⟩

/-- Claim C1 as amended: discovered post URLs are processed once per
occurrence, with no deduplication within a page or across the run: a URL
listed twice is fetched twice and, when extraction succeeds, contributes
two Records to the page's batch. -/
theorem c1_claim (env : Env) (p next u : List Char) (rest : List (List Char))
    (r : Record)
    (hp : env.pages p = some (next, u :: u :: rest))
    (ho : postOutcome env (URL_PREFIX ++ u) = .ok r) :
    postFetchCalls env p =
      (URL_PREFIX ++ u) :: (URL_PREFIX ++ u) :: rest.map (fun x => URL_PREFIX ++ x) ∧
    ∃ tl, pageRecords env p = r :: r :: tl := by
  constructor
  · simp only [postFetchCalls, hp, List.map_cons]
  · refine ⟨fetchPageRecords (rest.map fun x => postOutcome env (URL_PREFIX ++ x)), ?_⟩
    simp only [pageRecords, hp, List.map_cons, ho, fetchPageRecords]

/-- Witness for C1 at the duplicated-URL environment. -/
theorem c1_witness :
    postFetchCalls envC1 "p".toList =
      (URL_PREFIX ++ "/bbs/a.html".toList) :: (URL_PREFIX ++ "/bbs/a.html".toList) ::
        (([] : List (List Char)).map (fun x => URL_PREFIX ++ x)) ∧
    ∃ tl, pageRecords envC1 "p".toList = dupRecord :: dupRecord :: tl :=
  c1_claim envC1 "p".toList "/index978.html".toList "/bbs/a.html".toList []
    dupRecord rfl (by decide)

/-- Claim C2: in one iteration of the per-page loop the checkpoint is
written only after the batch is persisted.  If persistence fails, the
iteration propagates the error, the whole run aborts, and the state —
`page_url` and the cached checkpoint — is exactly the state from before
the page; if persistence succeeds, the checkpoint advances to the next
page's URL. -/
theorem c2_claim (env : Env) (st : CrawlSt) (next tag : List Char)
    (urls : List (List Char)) (n : Nat)
    (hp : env.pages st.pageUrl = some (next, urls))
    (ht : reSearchTag st.pageUrl = some tag) :
    (∀ msg,
      env.save (fetchPageRecords (urls.map fun u => postOutcome env (URL_PREFIX ++ u))) tag =
        .error msg →
      stepPage env st = .error (.saveError msg, st) ∧
      runPages env (n + 1) st = (st, some (.saveError msg))) ∧
    (env.save (fetchPageRecords (urls.map fun u => postOutcome env (URL_PREFIX ++ u))) tag =
        .ok () →
      stepPage env st = .ok ⟨URL_PREFIX ++ next, some (URL_PREFIX ++ next)⟩) := by
  constructor
  · intro msg hs
    have hstep : stepPage env st = .error (.saveError msg, st) := by
      simp only [stepPage, hp, ht, hs]
    exact ⟨hstep, by simp only [runPages, hstep]⟩
  · intro hs
    simp only [stepPage, hp, ht, hs]

/-- A crawl environment whose persistence sink always fails. -/
def envC2 : Env :=
  { pages := fun _ => some ("/index978.html".toList, []),
    fetchPost := fun _ => .unseenFault,
    parseDate := some,
    save := fun _ _ => .error "disk full".toList }

/-- Witness for C2: a failing save aborts the run with the pre-page
state, checkpoint untouched. -/
theorem c2_witness :
    stepPage envC2 ⟨"9.html".toList, none⟩ =
      .error (.saveError "disk full".toList, ⟨"9.html".toList, none⟩) ∧
    runPages envC2 1 ⟨"9.html".toList, none⟩ =
      (⟨"9.html".toList, none⟩, some (.saveError "disk full".toList)) :=
  (c2_claim envC2 ⟨"9.html".toList, none⟩ "/index978.html".toList "9".toList [] 0
    rfl (by decide)).1 "disk full".toList rfl

/-- Claim C9, counterexample: the checkpoint write truncates the file
before writing, so a crash in between leaves the empty string — a value
that is neither the previous checkpoint "P5" nor the new one "P6",
refuting "a subsequent read returns either the previous complete value
or the new complete value". -/
theorem c9_counterexample :
    ([] : List Char) ∈ writeNextPageStates "P5".toList "P6".toList ∧
    ([] : List Char) ≠ "P5".toList ∧ ([] : List Char) ≠ "P6".toList := by
  refine ⟨by decide, by decide, by decide⟩

/-- Claim C9 as amended: the checkpoint write is a plain truncate-then-
write overwrite and is not atomic with respect to process crash: for any
nonempty previous and new values there is a crash point after which a
read returns neither of them (namely the empty content left by the
truncating open). -/
theorem c9_claim (oldContent newContent : List Char)
    (h1 : oldContent ≠ []) (h2 : newContent ≠ []) :
    ∃ s, s ∈ writeNextPageStates oldContent newContent ∧
      s ≠ oldContent ∧ s ≠ newContent :=
  ⟨[], by simp [writeNextPageStates], fun e => h1 e.symm, fun e => h2 e.symm⟩

/-- Witness for C9 at the spec's checkpoint values. -/
theorem c9_witness :
    ∃ s, s ∈ writeNextPageStates "P5".toList "P6".toList ∧
      s ≠ "P5".toList ∧ s ≠ "P6".toList :=
  c9_claim "P5".toList "P6".toList (by decide) (by decide)

end Ptt
